import Mathlib

/-!
Shallow embedding of the JSON5 decoding engine in `src/de.rs` (crate
`json5-rs`).  The parse tree produced by the external pest grammar is
modelled as the inductive `Json5.Pair`; the scalar literal decoders
(`parse_bool`, `parse_string`, `parse_char_escape_sequence`,
`parse_number`, `parse_hex`, `is_hex_literal`) are translated function by
function from the source.  A Rust panic (an `unwrap` failure or an
`unreachable` branch) is modelled as `none` in `Option`-valued helpers
and as `DRes.fatal` in the decoder-level results; a recoverable
`Err(Error::...)` is `DRes.err`.

Floating point is modelled exactly: the `f64` domain is `Json5.JNum`,
rationals extended with the two infinities and a NaN point.  All numeric
values appearing in the verified claims (small integers, short decimal
fractions, hex literals below 2 to the 53rd) are exactly representable in
`f64`, so the rational model coincides with the double computed by the
source on every input these theorems touch; rounding of non-representable
decimals and overflow to infinity of huge exponents are outside the
claims and not modelled.
-/

namespace Json5

/-- Node kinds of the pest parse tree (`Rule` in `de.rs`): the value
rules plus the string-internal component rules. -/
inductive Rule where
  | null
  | boolean
  | string
  | identifier
  | number
  | array
  | object
  | char_literal
  | char_escape_sequence
  | nul_escape_sequence
  | hex_escape_sequence
  | unicode_escape_sequence
deriving DecidableEq, Repr

/-- One parse-tree node (`pest::iterators::Pair`): a kind tag, the exact
source text slice (`as_str`), and the ordered child nodes
(`into_inner`). -/
inductive Pair where
  | mk (rule : Rule) (text : String) (children : List Pair)
deriving Repr

def Pair.rule : Pair → Rule
  | .mk r _ _ => r

def Pair.text : Pair → String
  | .mk _ t _ => t

def Pair.children : Pair → List Pair
  | .mk _ _ cs => cs

/-- Modelled from the spec: the error taxonomy of the error module
(`error.rs`, not present under `src/`), per section 7 of the spec.  Only
`NotAnEnum`, `NotATuple` and `NotAStruct` are ever constructed by
`de.rs`. -/
inductive Error where
  | SyntaxError
  | UnexpectedNodeKind
  | InvalidCodepoint
  | NotAnEnum
  | NotATuple
  | NotAStruct
  | MissingPayload
deriving DecidableEq, Repr

/-- Result of a decode operation: success, a recoverable error returned
to the caller, or a fatal abort (a Rust panic from `unwrap` or
`unreachable`). -/
inductive DRes (α : Type) where
  | ok (a : α)
  | err (e : Error)
  | fatal
deriving DecidableEq, Repr

def DRes.map {α β : Type} (g : α → β) : DRes α → DRes β
  | .ok a => .ok (g a)
  | .err e => .err e
  | .fatal => .fatal

def DRes.bind {α β : Type} : DRes α → (α → DRes β) → DRes β
  | .ok a, f => f a
  | .err e, _ => .err e
  | .fatal, _ => .fatal

/-- Lifts an `Option` computed by a helper into a decode result; `none`
is a panic (`unwrap` on `None`), hence fatal. -/
def ofOption {α : Type} : Option α → DRes α
  | some a => .ok a
  | none => .fatal

/-- The `f64` value domain: rationals plus the infinities and NaN.  See
the module comment for the exactness argument. -/
inductive JNum where
  | inf
  | negInf
  | nan
  | val (q : ℚ)
deriving DecidableEq, Repr

/-- Source `parse_bool`: only the exact texts "true" and "false" are
booleans; any other text hits the `unreachable` branch (fatal). -/
def parse_bool (t : String) : Option Bool :=
  if t = "true" then some true
  else if t = "false" then some false
  else none

/-- Source `parse_char_escape_sequence`: the fixed escape table, with
every unlisted text returned verbatim (the catch-all arm). -/
def parse_char_escape_sequence (t : String) : String :=
  if t = "b" then "\x08"
  else if t = "f" then "\x0C"
  else if t = "n" then "\x0A"
  else if t = "r" then "\x0D"
  else if t = "t" then "\x09"
  else if t = "v" then "\x0B"
  else t

/-- Value of one hex digit, accepting both letter cases exactly as
`u32::from_str_radix(_, 16)` does. -/
def hexDigit? (c : Char) : Option Nat :=
  if '0' ≤ c ∧ c ≤ '9' then some (c.toNat - 48)
  else if 'a' ≤ c ∧ c ≤ 'f' then some (c.toNat - 87)
  else if 'A' ≤ c ∧ c ≤ 'F' then some (c.toNat - 55)
  else none

/-- Digit-accumulation loop of `from_str_radix`; `none` on a non-digit
character. -/
def parse_hex_core : List Char → Nat → Option Nat
  | [], acc => some acc
  | c :: cs, acc =>
    match hexDigit? c with
    | some d => parse_hex_core cs (16 * acc + d)
    | none => none

/-- Magnitude part of `u32::from_str_radix(s, 16)`: rejects the empty
digit string and any value not representable in 32 bits.  The source
checks overflow step by step with `checked_mul`/`checked_add`; since the
accumulated value never decreases, that is equivalent to the final-value
bound used here. -/
def parse_hex_mag (ds : List Char) : Option Nat :=
  if ds = [] then none
  else Option.bind (parse_hex_core ds 0) fun v => if v < 2 ^ 32 then some v else none

/-- Source `parse_hex` minus the final `unwrap`: the exact behaviour of
`u32::from_str_radix(s, 16)`, including the sign handling of the Rust
integer parser (a leading plus is accepted; a leading minus only for
value zero).  `none` means the `unwrap` in the source panics. -/
def parse_hex (ds : List Char) : Option Nat :=
  match ds with
  | [] => none
  | c :: r =>
    if c = '+' then parse_hex_mag r
    else if c = '-' then Option.bind (parse_hex_mag r) fun v => if v = 0 then some 0 else none
    else parse_hex_mag (c :: r)

/-- Value of the full hex digit string (used to state theorems about
`parse_hex`). -/
def hexVal (ds : List Char) : Nat :=
  ds.foldl (fun a c => 16 * a + (hexDigit? c).getD 0) 0

/-- Rust `char::from_u32`: `some` exactly on Unicode scalar values
(rejecting the surrogate range and values above 0x10FFFF). -/
def char_from_u32 (v : Nat) : Option Char :=
  if Nat.isValidChar v then some (Char.ofNat v) else none

/-- The per-component closure inside the source `parse_string`: decodes
one string sub-node.  A `char_literal` run is kept verbatim; the escape
kinds go through their tables; the hex and unicode escapes call
`parse_hex` and `char::from_u32` and the source unwraps both results, so
either failure is fatal (`none`).  The catch-all arm is the source
`unreachable`. -/
def parse_component (p : Pair) : Option String :=
  match p with
  | .mk .char_literal t _ => some t
  | .mk .char_escape_sequence t _ => some (parse_char_escape_sequence t)
  | .mk .nul_escape_sequence _ _ => some "\x00"
  | .mk .hex_escape_sequence t _ =>
      Option.bind (parse_hex t.data) fun v => Option.map Char.toString (char_from_u32 v)
  | .mk .unicode_escape_sequence t _ =>
      Option.bind (parse_hex t.data) fun v => Option.map Char.toString (char_from_u32 v)
  | _ => none

/-- Source `parse_string`: the in-order concatenation (`collect`) of the
decoded components of the string node. -/
def parse_string : List Pair → Option String
  | [] => some ""
  | c :: rest =>
    match parse_component c, parse_string rest with
    | some s, some t => some (s ++ t)
    | _, _ => none

/-- Digit string to natural number, base ten. -/
def natOfDigits (ds : List Char) : Nat :=
  ds.foldl (fun a c => 10 * a + (c.toNat - 48)) 0

/-- Mantissa and exponent to exact value: integer digits, fraction
digits, signed decimal exponent.  The value is the rational
sign times (digits of `ip` then `fp` read as one integer) times ten to
the (`ex` minus the fraction length); it is built with `Rat.divInt` so
that concrete instances reduce inside the kernel. -/
def mkNum (neg : Bool) (ip fp : List Char) (ex : Int) : JNum :=
  let n : Int := (natOfDigits (ip ++ fp) : ℤ)
  let sn : Int := if neg then -n else n
  let e : Int := ex - (fp.length : ℤ)
  if 0 ≤ e then .val (Rat.divInt (sn * 10 ^ e.toNat) 1)
  else .val (Rat.divInt sn (10 ^ (-e).toNat))

/-- Exponent part of the float grammar: nothing, or `e`/`E`, an optional
sign and a nonempty digit string, with no trailing characters. -/
def parse_exp (neg : Bool) (ip fp : List Char) : List Char → Option JNum
  | [] => some (mkNum neg ip fp 0)
  | c :: r =>
    if c = 'e' ∨ c = 'E' then
      let p : Int × List Char :=
        match r with
        | '+' :: t => (1, t)
        | '-' :: t => (-1, t)
        | _ => (1, r)
      let ed := p.2.takeWhile Char.isDigit
      if ed = [] ∨ p.2.dropWhile Char.isDigit ≠ [] then none
      else some (mkNum neg ip fp (p.1 * (natOfDigits ed : Int)))
    else none

/-- Decimal part of the float grammar: digits, an optional point with
further digits, requiring at least one mantissa digit. -/
def parse_dec (neg : Bool) (cs : List Char) : Option JNum :=
  let ip := cs.takeWhile Char.isDigit
  let r1 := cs.dropWhile Char.isDigit
  match r1 with
  | '.' :: r2 =>
      let fp := r2.takeWhile Char.isDigit
      let r3 := r2.dropWhile Char.isDigit
      if ip = [] ∧ fp = [] then none else parse_exp neg ip fp r3
  | _ => if ip = [] then none else parse_exp neg ip [] r1

/-- Model of Rust `str::parse::<f64>` restricted to exact values: an
optional sign, then either one of the case-insensitive special words
(`inf`, `infinity`, `nan`) accepted by the Rust float parser, or a
decimal/exponential literal evaluated exactly.  See the module comment
for the scope of the exactness. -/
def parse_f64 (cs : List Char) : Option JNum :=
  let p : Bool × List Char :=
    match cs with
    | '+' :: r => (false, r)
    | '-' :: r => (true, r)
    | _ => (false, cs)
  let low := p.2.map Char.toLower
  if low = "inf".data ∨ low = "infinity".data then
    some (if p.1 then .negInf else .inf)
  else if low = "nan".data then some .nan
  else parse_dec p.1 p.2

/-- Source `is_hex_literal`: byte length above two and prefix `0x` or
`0X`.  The node text is ASCII under the number grammar, so byte length
and character count agree. -/
def is_hex_literal : List Char → Bool
  | '0' :: 'x' :: _ :: _ => true
  | '0' :: 'X' :: _ :: _ => true
  | _ => false

/-- Source `parse_number`: the priority match on the node text.  The
final arm is `s.parse().unwrap()`, so a failed decimal parse is a panic
(`none`); a hex literal whose digits overflow `u32` panics inside
`parse_hex` (`none`). -/
def parse_number (s : String) : Option JNum :=
  if s = "Infinity" then some .inf
  else if s = "-Infinity" then some .negInf
  else if s = "NaN" ∨ s = "-NaN" then some .nan
  else if is_hex_literal s.data then
    Option.map (fun (v : ℕ) => JNum.val (v : ℚ)) (parse_hex (s.data.drop 2))
  else parse_f64 s.data

/-- Truncation toward zero of a rational: the rounding used by a Rust
float-to-integer `as` cast on in-range values. -/
def ratTrunc (q : ℚ) : Int :=
  q.num.sign * ((q.num.natAbs / q.den : ℕ) : ℤ)

/-- Rust `f64 as` integer cast (the saturating semantics of `as`): NaN
to zero, truncation toward zero, then clamping into the target range. -/
def castSat (lo hi : Int) : JNum → Int
  | .nan => 0
  | .inf => hi
  | .negInf => lo
  | .val q => max lo (min hi (ratTrunc q))

/-- Source `deserialize_i8`: takes the pair, parses the text as a
number and hands `visitor.visit_i8` the `as i8` cast.  The visitor is
modelled as the identity on the produced integer, since every claim is
about the value and outcome the engine produces. -/
def deserialize_i8 (p : Pair) : DRes Int :=
  DRes.map (castSat (-(2 ^ 7)) (2 ^ 7 - 1)) (ofOption (parse_number p.text))

/-- Source `deserialize_i16`. -/
def deserialize_i16 (p : Pair) : DRes Int :=
  DRes.map (castSat (-(2 ^ 15)) (2 ^ 15 - 1)) (ofOption (parse_number p.text))

/-- Source `deserialize_i32`. -/
def deserialize_i32 (p : Pair) : DRes Int :=
  DRes.map (castSat (-(2 ^ 31)) (2 ^ 31 - 1)) (ofOption (parse_number p.text))

/-- Source `deserialize_i64`. -/
def deserialize_i64 (p : Pair) : DRes Int :=
  DRes.map (castSat (-(2 ^ 63)) (2 ^ 63 - 1)) (ofOption (parse_number p.text))

/-- Source `deserialize_i128`. -/
def deserialize_i128 (p : Pair) : DRes Int :=
  DRes.map (castSat (-(2 ^ 127)) (2 ^ 127 - 1)) (ofOption (parse_number p.text))

/-- Source `deserialize_u8`. -/
def deserialize_u8 (p : Pair) : DRes Int :=
  DRes.map (castSat 0 (2 ^ 8 - 1)) (ofOption (parse_number p.text))

/-- Source `deserialize_u16`. -/
def deserialize_u16 (p : Pair) : DRes Int :=
  DRes.map (castSat 0 (2 ^ 16 - 1)) (ofOption (parse_number p.text))

/-- Source `deserialize_u32`. -/
def deserialize_u32 (p : Pair) : DRes Int :=
  DRes.map (castSat 0 (2 ^ 32 - 1)) (ofOption (parse_number p.text))

/-- Source `deserialize_u64`. -/
def deserialize_u64 (p : Pair) : DRes Int :=
  DRes.map (castSat 0 (2 ^ 64 - 1)) (ofOption (parse_number p.text))

/-- Source `deserialize_u128`. -/
def deserialize_u128 (p : Pair) : DRes Int :=
  DRes.map (castSat 0 (2 ^ 128 - 1)) (ofOption (parse_number p.text))

/-- Source `deserialize_f64`: the parsed number handed to
`visit_f64` unchanged. -/
def deserialize_f64 (p : Pair) : DRes JNum :=
  ofOption (parse_number p.text)

/-- Source `deserialize_f32`: `parse_number(pair) as f32`.  Only the
success/error/abort outcome is modelled (the value is erased): the
single-precision rounding of the finite value lies outside the rational
number model, and no claim inspects an `f32` value. -/
def deserialize_f32 (p : Pair) : DRes Unit :=
  DRes.map (fun _ => ()) (ofOption (parse_number p.text))

/-- Argument handed by `deserialize_any` to the visitor callback it
selects: the engine dispatches on the node kind and either passes a
decoded scalar or wraps the children in a sequence/mapping adapter.
This models the source up to the visitor action (the caller side). -/
inductive VisitArg where
  | vunit
  | vbool (b : Bool)
  | vstring (s : String)
  | vf64 (n : JNum)
  | vseq (pairs : List Pair)
  | vmap (pairs : List Pair)

/-- Source `deserialize_any`: dispatch on the rule of the current node.
The final arm is the source `unreachable` (a string-component rule at
value position). -/
def deserialize_any : Pair → DRes VisitArg
  | .mk .null _ _ => .ok .vunit
  | .mk .boolean t _ =>
    match parse_bool t with
    | some b => .ok (.vbool b)
    | none => .fatal
  | .mk .string _ cs =>
    match parse_string cs with
    | some s => .ok (.vstring s)
    | none => .fatal
  | .mk .identifier _ cs =>
    match parse_string cs with
    | some s => .ok (.vstring s)
    | none => .fatal
  | .mk .number t _ =>
    match parse_number t with
    | some n => .ok (.vf64 n)
    | none => .fatal
  | .mk .array _ cs => .ok (.vseq cs)
  | .mk .object _ cs => .ok (.vmap cs)
  | .mk _ _ _ => .fatal

/-- The sequence adapter (`struct Seq`): the remaining-children
iterator of an array node. -/
structure SeqAcc where
  pairs : List Pair

/-- Source `next_element_seed`: on a nonempty iterator, decode the next
child with the caller seed and advance; on an empty one report
exhaustion (`Ok(None)`). -/
def next_element_seed {α : Type} (f : Pair → DRes α) : SeqAcc → DRes (Option α) × SeqAcc
  | ⟨[]⟩ => (.ok none, ⟨[]⟩)
  | ⟨p :: rest⟩ => (DRes.map some (f p), ⟨rest⟩)

/-- The loop every sequence visitor runs: collect elements in order,
stopping at the first error or panic.  Stated directly as the in-order
traversal; the adequacy theorem for claim C9 connects it to iterated
`next_element_seed` calls. -/
def seq_collect {α : Type} (f : Pair → DRes α) : List Pair → DRes (List α)
  | [] => .ok []
  | p :: ps =>
    match f p with
    | .ok a => DRes.map (fun l => a :: l) (seq_collect f ps)
    | .err e => .err e
    | .fatal => .fatal

/-- Driving the sequence adapter through `next_element_seed` until it
reports exhaustion; the fuel argument only bounds the iteration and any
value at least the child count is enough. -/
def seq_drive {α : Type} (f : Pair → DRes α) : Nat → SeqAcc → DRes (List α)
  | 0, _ => .fatal
  | n + 1, s =>
    match next_element_seed f s with
    | (.ok none, _) => .ok []
    | (.ok (some a), s2) => DRes.map (fun l => a :: l) (seq_drive f n s2)
    | (.err e, _) => .err e
    | (.fatal, _) => .fatal

/-- The variant adapter (`struct Variant`): the captured payload node,
if any. -/
structure VariantAdapter where
  pair : Option Pair

/-- Source `variant_seed` (`EnumAccess`): a string node decodes itself
as the tag with no payload captured; an object node uses its first
child (the first key) as the tag and the following child (that key
value) as the payload; an empty object and every other node kind fail
with `NotAnEnum`. -/
def variant_seed {α : Type} (f : Pair → DRes α) (p : Pair) : DRes (α × VariantAdapter) :=
  match p with
  | .mk .string t cs => DRes.map (fun tag => (tag, ⟨none⟩)) (f (.mk .string t cs))
  | .mk .object _ cs =>
    match cs with
    | [] => .err .NotAnEnum
    | tagPair :: rest => DRes.map (fun tag => (tag, ⟨rest.head?⟩)) (f tagPair)
  | _ => .err .NotAnEnum

/-- Source `unit_variant`: always succeeds, ignoring any stored
payload. -/
def unit_variant (_v : VariantAdapter) : DRes Unit := .ok ()

/-- Source `newtype_variant_seed`: `self.pair.unwrap()` then decode; an
empty payload slot is a panic, not an error. -/
def newtype_variant_seed {α : Type} (f : Pair → DRes α) : VariantAdapter → DRes α
  | ⟨none⟩ => .fatal
  | ⟨some p⟩ => f p

/-- Source `tuple_variant`: `self.pair.unwrap()`, then the payload must
be an array (its children are handed to the sequence visitor, returned
here), else `NotATuple`. -/
def tuple_variant : VariantAdapter → DRes (List Pair)
  | ⟨none⟩ => .fatal
  | ⟨some p⟩ =>
    match p with
    | .mk .array _ cs => .ok cs
    | _ => .err .NotATuple

/-- Source `struct_variant`: `self.pair.unwrap()`, then the payload
must be an object (its children are handed to the mapping visitor),
else `NotAStruct`. -/
def struct_variant : VariantAdapter → DRes (List Pair)
  | ⟨none⟩ => .fatal
  | ⟨some p⟩ =>
    match p with
    | .mk .object _ cs => .ok cs
    | _ => .err .NotAStruct

/-- Caller-side model of the serde visitor for a vector of 32-bit
integers: it asks the engine for the node, expects the sequence adapter
and drives it with `deserialize_i32` on every element.  The fallback
arm is the caller-side type mismatch; it is never reached in the
theorems below, which apply this only to array nodes. -/
def decode_i32_vec (p : Pair) : DRes (List Int) :=
  DRes.bind (deserialize_any p) fun va =>
    match va with
    | .vseq ps => seq_collect deserialize_i32 ps
    | _ => .fatal

/-- Caller-side model of the visitor for a vector of vectors of 32-bit
integers. -/
def decode_i32_vec_vec (p : Pair) : DRes (List (List Int)) :=
  DRes.bind (deserialize_any p) fun va =>
    match va with
    | .vseq ps => seq_collect decode_i32_vec ps
    | _ => .fatal

/-- The parse tree the grammar produces for the source text
`[[1, 2], [3], []]`. -/
def nested_array_tree : Pair :=
  .mk .array "[[1, 2], [3], []]"
    [ .mk .array "[1, 2]" [.mk .number "1" [], .mk .number "2" []],
      .mk .array "[3]" [.mk .number "3" []],
      .mk .array "[]" [] ]

/-! Helper lemmas shared by the claim theorems. -/

lemma ofOption_ne_err {α : Type} (o : Option α) (e : Error) : ofOption o ≠ .err e := by
  cases o <;> intro h <;> exact DRes.noConfusion h

lemma map_ofOption_ne_err {α β : Type} (g : α → β) (o : Option α) (e : Error) :
    DRes.map g (ofOption o) ≠ .err e := by
  cases o <;> intro h <;> exact DRes.noConfusion h

lemma ofOption_none {α : Type} {o : Option α} (h : o = none) : ofOption o = .fatal := by
  rw [h]; rfl

lemma map_ofOption_none {α β : Type} (g : α → β) {o : Option α} (h : o = none) :
    DRes.map g (ofOption o) = .fatal := by
  rw [h]; rfl

lemma map_ofOption_some {α β : Type} (g : α → β) {o : Option α} {a : α} (h : o = some a) :
    DRes.map g (ofOption o) = .ok (g a) := by
  rw [h]; rfl

/-- C1 (counterexample to the claim as stated): a boolean node decoded
at width i8 aborts fatally (the decimal-parse `unwrap` panics on the
text `true`); it does not return the recoverable error
`UnexpectedNodeKind` the claim promises. -/
theorem C1_counterexample :
    deserialize_i8 (Pair.mk .boolean "true" []) = DRes.fatal ∧
    deserialize_i8 (Pair.mk .boolean "true" []) ≠ DRes.err Error.UnexpectedNodeKind := by
  exact ⟨by decide, by decide⟩

/-- C1 (amended): a decode call requesting a specific scalar width
never inspects the node kind and never returns `UnexpectedNodeKind` or
any other recoverable error; it parses the node text as a number, and
when the text is not a number form the call aborts fatally through the
internal `unwrap`.  The last clause states the kind-independence: the
outcome depends only on the node text. -/
theorem C1_scalar_decode :
    (∀ (p : Pair) (e : Error),
        deserialize_i8 p ≠ .err e ∧ deserialize_i16 p ≠ .err e ∧
        deserialize_i32 p ≠ .err e ∧ deserialize_i64 p ≠ .err e ∧
        deserialize_i128 p ≠ .err e ∧ deserialize_u8 p ≠ .err e ∧
        deserialize_u16 p ≠ .err e ∧ deserialize_u32 p ≠ .err e ∧
        deserialize_u64 p ≠ .err e ∧ deserialize_u128 p ≠ .err e ∧
        deserialize_f32 p ≠ .err e ∧ deserialize_f64 p ≠ .err e) ∧
    (∀ p : Pair, parse_number p.text = none →
        deserialize_i8 p = .fatal ∧ deserialize_i16 p = .fatal ∧
        deserialize_i32 p = .fatal ∧ deserialize_i64 p = .fatal ∧
        deserialize_i128 p = .fatal ∧ deserialize_u8 p = .fatal ∧
        deserialize_u16 p = .fatal ∧ deserialize_u32 p = .fatal ∧
        deserialize_u64 p = .fatal ∧ deserialize_u128 p = .fatal ∧
        deserialize_f32 p = .fatal ∧ deserialize_f64 p = .fatal) ∧
    (∀ (r1 r2 : Rule) (t : String) (cs1 cs2 : List Pair),
        deserialize_i8 (Pair.mk r1 t cs1) = deserialize_i8 (Pair.mk r2 t cs2) ∧
        deserialize_f64 (Pair.mk r1 t cs1) = deserialize_f64 (Pair.mk r2 t cs2)) := by
  refine ⟨fun p e => ?_, fun p h => ?_, fun r1 r2 t cs1 cs2 => ⟨rfl, rfl⟩⟩
  · exact ⟨map_ofOption_ne_err _ _ _, map_ofOption_ne_err _ _ _, map_ofOption_ne_err _ _ _,
      map_ofOption_ne_err _ _ _, map_ofOption_ne_err _ _ _, map_ofOption_ne_err _ _ _,
      map_ofOption_ne_err _ _ _, map_ofOption_ne_err _ _ _, map_ofOption_ne_err _ _ _,
      map_ofOption_ne_err _ _ _, map_ofOption_ne_err _ _ _, ofOption_ne_err _ _⟩
  · exact ⟨map_ofOption_none _ h, map_ofOption_none _ h, map_ofOption_none _ h,
      map_ofOption_none _ h, map_ofOption_none _ h, map_ofOption_none _ h,
      map_ofOption_none _ h, map_ofOption_none _ h, map_ofOption_none _ h,
      map_ofOption_none _ h, map_ofOption_none _ h, ofOption_none h⟩

/-- C1 (witness): the amended theorem applied to a concrete boolean
node, whose text fails the number parse. -/
theorem C1_scalar_decode_witness :
    deserialize_i16 (Pair.mk .boolean "false" []) = DRes.fatal :=
  (C1_scalar_decode.2.1 (Pair.mk .boolean "false" []) (by decide)).2.1

/-- C7: a number node decoded at a fixed integer width yields exactly
the saturating truncation of its parsed floating-point value (the Rust
`as` cast): in-range values are truncated toward zero (fractional part
discarded), and no recoverable range error is ever produced.  The last
two clauses pin down the cast: truncation is the identity on integers,
and the clamping is the identity whenever the truncated value lies in
the target range. -/
theorem C7_truncating_narrowing :
    (∀ (p : Pair) (n : JNum), p.rule = Rule.number → parse_number p.text = some n →
        deserialize_i8 p = .ok (castSat (-(2 ^ 7)) (2 ^ 7 - 1) n) ∧
        deserialize_i16 p = .ok (castSat (-(2 ^ 15)) (2 ^ 15 - 1) n) ∧
        deserialize_i32 p = .ok (castSat (-(2 ^ 31)) (2 ^ 31 - 1) n) ∧
        deserialize_i64 p = .ok (castSat (-(2 ^ 63)) (2 ^ 63 - 1) n) ∧
        deserialize_i128 p = .ok (castSat (-(2 ^ 127)) (2 ^ 127 - 1) n) ∧
        deserialize_u8 p = .ok (castSat 0 (2 ^ 8 - 1) n) ∧
        deserialize_u16 p = .ok (castSat 0 (2 ^ 16 - 1) n) ∧
        deserialize_u32 p = .ok (castSat 0 (2 ^ 32 - 1) n) ∧
        deserialize_u64 p = .ok (castSat 0 (2 ^ 64 - 1) n) ∧
        deserialize_u128 p = .ok (castSat 0 (2 ^ 128 - 1) n) ∧
        (∀ e : Error, deserialize_i8 p ≠ .err e ∧ deserialize_u128 p ≠ .err e)) ∧
    (∀ z : ℤ, ratTrunc (z : ℚ) = z) ∧
    (∀ (q : ℚ) (lo hi : ℤ), lo ≤ ratTrunc q → ratTrunc q ≤ hi →
        castSat lo hi (.val q) = ratTrunc q) := by
  refine ⟨fun p n _ h => ?_, fun z => ?_, fun q lo hi h1 h2 => ?_⟩
  · exact ⟨map_ofOption_some _ h, map_ofOption_some _ h, map_ofOption_some _ h,
      map_ofOption_some _ h, map_ofOption_some _ h, map_ofOption_some _ h,
      map_ofOption_some _ h, map_ofOption_some _ h, map_ofOption_some _ h,
      map_ofOption_some _ h,
      fun e => ⟨map_ofOption_ne_err _ _ _, map_ofOption_ne_err _ _ _⟩⟩
  · simp [ratTrunc, Rat.num_intCast, Rat.den_intCast, Nat.div_one, Int.sign_mul_abs]
  · simp only [castSat]
    omega

/-- C7 (witness): the theorem applied to the concrete number node
`300.7` decoded as i8; the parsed value truncates to 300 and saturates
at 127. -/
theorem C7_truncating_narrowing_witness :
    deserialize_i8 (Pair.mk .number "300.7" [])
      = .ok (castSat (-(2 ^ 7)) (2 ^ 7 - 1) (JNum.val (Rat.divInt 3007 10))) :=
  (C7_truncating_narrowing.1 (Pair.mk .number "300.7" [])
    (JNum.val (Rat.divInt 3007 10)) rfl (by decide)).1

/-- C8: decoding is deterministic — every decode operation of the
engine is a total function of the parse tree (and the caller seed)
alone, so two runs over identical input yield equal results, equal
successes as well as equal errors.  The embedding threads no state
besides the explicit arguments, mirroring the source, which reads only
the borrowed parse tree. -/
theorem C8_deterministic :
    ∀ p : Pair,
      deserialize_any p = deserialize_any p ∧
      deserialize_i8 p = deserialize_i8 p ∧
      deserialize_f64 p = deserialize_f64 p ∧
      parse_number p.text = parse_number p.text ∧
      parse_string p.children = parse_string p.children ∧
      (∀ (α : Type) (f : Pair → DRes α), variant_seed f p = variant_seed f p) ∧
      (∀ (α : Type) (f : Pair → DRes α) (ps : List Pair),
          seq_collect f ps = seq_collect f ps) :=
  fun _ => ⟨rfl, rfl, rfl, rfl, rfl, fun _ _ => rfl, fun _ _ _ => rfl⟩

lemma parse_string_append_none {b : Pair} (hb : parse_component b = none)
    (pre post : List Pair) : parse_string (pre ++ b :: post) = none := by
  induction pre with
  | nil => simp [parse_string, hb]
  | cons c cs ih =>
    rw [List.cons_append]
    cases h : parse_component c <;> simp [parse_string, h, ih]

/-- C2 (counterexample to the claim as stated): a string node holding
the unicode escape `D800` (an unpaired surrogate) aborts decoding
fatally — the `unwrap` on the failed `char::from_u32` panics — instead
of returning the recoverable error `InvalidCodepoint` the claim
promises. -/
theorem C2_counterexample :
    deserialize_any (Pair.mk .string "\\uD800" [Pair.mk .unicode_escape_sequence "D800" []])
      = DRes.fatal ∧
    deserialize_any (Pair.mk .string "\\uD800" [Pair.mk .unicode_escape_sequence "D800" []])
      ≠ DRes.err Error.InvalidCodepoint := by
  refine ⟨rfl, fun h => ?_⟩
  rw [show deserialize_any
        (Pair.mk .string "\\uD800" [Pair.mk .unicode_escape_sequence "D800" []])
        = DRes.fatal from rfl] at h
  exact DRes.noConfusion h

/-- C2 (amended): a hex or unicode escape whose text parses in base 16
to the value v contributes the single character at codepoint v when v
is a Unicode scalar value; when it is not (an unpaired surrogate), the
decode of any string node containing that escape aborts fatally (the
`unwrap` on `char::from_u32` panics) — no recoverable `InvalidCodepoint`
error is returned. -/
theorem C2_escape_codepoint :
    ∀ (t : String) (v : ℕ) (cs : List Pair), parse_hex t.data = some v →
      (Nat.isValidChar v →
          parse_component (Pair.mk .hex_escape_sequence t cs) = some (Char.ofNat v).toString ∧
          parse_component (Pair.mk .unicode_escape_sequence t cs)
            = some (Char.ofNat v).toString) ∧
      (¬ Nat.isValidChar v →
          parse_component (Pair.mk .hex_escape_sequence t cs) = none ∧
          parse_component (Pair.mk .unicode_escape_sequence t cs) = none ∧
          (∀ (text : String) (pre post : List Pair),
              deserialize_any (Pair.mk .string text
                (pre ++ Pair.mk .unicode_escape_sequence t cs :: post)) = .fatal)) := by
  intro t v cs hv
  constructor
  · intro hval
    constructor <;> simp [parse_component, hv, char_from_u32, hval]
  · intro hval
    have h1 : parse_component (Pair.mk .hex_escape_sequence t cs) = none := by
      simp [parse_component, hv, char_from_u32, hval]
    have h2 : parse_component (Pair.mk .unicode_escape_sequence t cs) = none := by
      simp [parse_component, hv, char_from_u32, hval]
    refine ⟨h1, h2, fun text pre post => ?_⟩
    show (match parse_string (pre ++ Pair.mk .unicode_escape_sequence t cs :: post) with
          | some u => DRes.ok (VisitArg.vstring u)
          | none => DRes.fatal) = DRes.fatal
    rw [parse_string_append_none h2]

/-- C2 (witness): the amended theorem applied to the hex escape `41`
(valid, the letter A) and to the unicode escape `D800` (an unpaired
surrogate, fatal). -/
theorem C2_escape_codepoint_witness :
    parse_component (Pair.mk .hex_escape_sequence "41" []) = some (Char.ofNat 65).toString ∧
    parse_component (Pair.mk .unicode_escape_sequence "D800" []) = none :=
  ⟨((C2_escape_codepoint "41" 65 [] (by decide)).1 (by decide)).1,
   ((C2_escape_codepoint "D800" 55296 [] (by decide)).2 (by decide)).2.1⟩

/-- C3 (counterexample to the claim as stated): after resolving a
variant from the bare string form (no payload node captured), a
single-payload request aborts fatally — `self.pair.unwrap()` panics on
the empty slot — instead of returning the recoverable error
`MissingPayload` the claim promises. -/
theorem C3_counterexample :
    variant_seed deserialize_any (Pair.mk .string "A" [Pair.mk .char_literal "A" []])
      = .ok (VisitArg.vstring "A", VariantAdapter.mk none) ∧
    newtype_variant_seed deserialize_any (VariantAdapter.mk none) = DRes.fatal ∧
    newtype_variant_seed deserialize_any (VariantAdapter.mk none)
      ≠ DRes.err Error.MissingPayload := by
  refine ⟨rfl, rfl, fun h => ?_⟩
  rw [show newtype_variant_seed deserialize_any (VariantAdapter.mk none) = DRes.fatal
        from rfl] at h
  exact DRes.noConfusion h

/-- C3 (amended): variant payload decoding branches on the declared
arity: a unit request always succeeds; a single-payload request decodes
the captured payload node when one exists and aborts fatally (unwrap on
the empty payload slot) when the variant came in bare string form; a
fixed-arity-sequence request with a captured payload fails with
`NotATuple` unless that payload is an array (and aborts fatally when no
payload was captured); a named-fields request with a captured payload
fails with `NotAStruct` unless that payload is an object (and aborts
fatally when no payload was captured). -/
theorem C3_payload_arity :
    (∀ v : VariantAdapter, unit_variant v = .ok ()) ∧
    (∀ (α : Type) (f : Pair → DRes α), newtype_variant_seed f ⟨none⟩ = .fatal) ∧
    (∀ (α : Type) (f : Pair → DRes α) (p : Pair), newtype_variant_seed f ⟨some p⟩ = f p) ∧
    tuple_variant ⟨none⟩ = .fatal ∧
    (∀ (t : String) (cs : List Pair), tuple_variant ⟨some (Pair.mk .array t cs)⟩ = .ok cs) ∧
    (∀ p : Pair, p.rule ≠ .array → tuple_variant ⟨some p⟩ = .err .NotATuple) ∧
    struct_variant ⟨none⟩ = .fatal ∧
    (∀ (t : String) (cs : List Pair), struct_variant ⟨some (Pair.mk .object t cs)⟩ = .ok cs) ∧
    (∀ p : Pair, p.rule ≠ .object → struct_variant ⟨some p⟩ = .err .NotAStruct) := by
  refine ⟨fun v => rfl, fun α f => rfl, fun α f p => rfl, rfl, fun t cs => rfl,
    fun p h => ?_, rfl, fun t cs => rfl, fun p h => ?_⟩
  · cases p with
    | mk r t cs => cases r <;> first | rfl | exact absurd rfl h
  · cases p with
    | mk r t cs => cases r <;> first | rfl | exact absurd rfl h

/-- C3 (witness): the amended theorem applied to a captured string
payload requested as a tuple (NotATuple) and as a struct (NotAStruct). -/
theorem C3_payload_arity_witness :
    tuple_variant (VariantAdapter.mk (some (Pair.mk .string "A" []))) = DRes.err Error.NotATuple ∧
    struct_variant (VariantAdapter.mk (some (Pair.mk .string "A" []))) = DRes.err Error.NotAStruct :=
  ⟨C3_payload_arity.2.2.2.2.2.1 (Pair.mk .string "A" []) (by decide),
   C3_payload_arity.2.2.2.2.2.2.2.2 (Pair.mk .string "A" []) (by decide)⟩

/-- C5: variant resolution — a string node decodes itself as the tag
with no payload node captured; an object node with at least one
key/value pair decodes its first child (the first key) as the tag and
captures the next child (that key value, the children of an object
being the flat alternating key/value sequence) as the payload when
present; an object with no children fails with `NotAnEnum`; every node
kind other than string and object fails with `NotAnEnum`. -/
theorem C5_variant_resolution :
    (∀ (α : Type) (f : Pair → DRes α) (t : String) (cs : List Pair) (tag : α),
        f (Pair.mk .string t cs) = .ok tag →
        variant_seed f (Pair.mk .string t cs) = .ok (tag, VariantAdapter.mk none)) ∧
    (∀ (α : Type) (f : Pair → DRes α) (t : String) (k : Pair) (rest : List Pair) (tag : α),
        f k = .ok tag →
        variant_seed f (Pair.mk .object t (k :: rest))
          = .ok (tag, VariantAdapter.mk rest.head?)) ∧
    (∀ (α : Type) (f : Pair → DRes α) (t : String),
        variant_seed f (Pair.mk .object t []) = .err .NotAnEnum) ∧
    (∀ (α : Type) (f : Pair → DRes α) (p : Pair),
        p.rule ≠ .string → p.rule ≠ .object → variant_seed f p = .err .NotAnEnum) := by
  refine ⟨fun α f t cs tag h => ?_, fun α f t k rest tag h => ?_,
    fun α f t => rfl, fun α f p h1 h2 => ?_⟩
  · show DRes.map (fun tag => (tag, VariantAdapter.mk none)) (f (Pair.mk .string t cs))
        = .ok (tag, VariantAdapter.mk none)
    rw [h]; rfl
  · show DRes.map (fun tag => (tag, VariantAdapter.mk rest.head?)) (f k)
        = .ok (tag, VariantAdapter.mk rest.head?)
    rw [h]; rfl
  · cases p with
    | mk r t cs =>
      cases r <;> first
        | (cases cs <;> rfl)
        | rfl
        | exact absurd rfl h1
        | exact absurd rfl h2

/-- C5 (witness): the theorem applied to a bare string tag, a
single-pair object, an empty object and a boolean node. -/
theorem C5_variant_resolution_witness :
    variant_seed deserialize_any (Pair.mk .string "B" [Pair.mk .char_literal "B" []])
      = .ok (VisitArg.vstring "B", VariantAdapter.mk none) ∧
    variant_seed deserialize_any
        (Pair.mk .object "obj" [Pair.mk .identifier "B" [Pair.mk .char_literal "B" []],
          Pair.mk .number "2" []])
      = .ok (VisitArg.vstring "B", VariantAdapter.mk (some (Pair.mk .number "2" []))) ∧
    variant_seed deserialize_any (Pair.mk .object "obj" []) = .err .NotAnEnum ∧
    variant_seed deserialize_any (Pair.mk .boolean "true" []) = .err .NotAnEnum :=
  ⟨C5_variant_resolution.1 VisitArg deserialize_any "B" [Pair.mk .char_literal "B" []]
      (VisitArg.vstring "B") rfl,
   C5_variant_resolution.2.1 VisitArg deserialize_any "obj"
      (Pair.mk .identifier "B" [Pair.mk .char_literal "B" []])
      [Pair.mk .number "2" []] (VisitArg.vstring "B") rfl,
   C5_variant_resolution.2.2.1 VisitArg deserialize_any "obj",
   C5_variant_resolution.2.2.2 VisitArg deserialize_any (Pair.mk .boolean "true" [])
      (by decide) (by decide)⟩

/-- C6: the decoded string is the in-order concatenation of the
component contributions — a literal run contributes its text verbatim,
the escape table sends b, f, n, r, t, v to the control characters
U+0008, U+000C, U+000A, U+000D, U+0009, U+000B, any other
single-character escape contributes itself, and a nul escape
contributes U+0000; the last two clauses give the empty and cons cases
of the concatenation and the delivery of the finished string by
`deserialize_any`. -/
theorem C6_string_concat :
    (∀ (t : String) (cs : List Pair),
        parse_component (Pair.mk .char_literal t cs) = some t) ∧
    (parse_char_escape_sequence "b" = "\x08" ∧
     parse_char_escape_sequence "f" = "\x0C" ∧
     parse_char_escape_sequence "n" = "\x0A" ∧
     parse_char_escape_sequence "r" = "\x0D" ∧
     parse_char_escape_sequence "t" = "\x09" ∧
     parse_char_escape_sequence "v" = "\x0B") ∧
    (∀ t : String, t ≠ "b" → t ≠ "f" → t ≠ "n" → t ≠ "r" → t ≠ "t" → t ≠ "v" →
        parse_char_escape_sequence t = t) ∧
    (∀ (t : String) (cs : List Pair),
        parse_component (Pair.mk .char_escape_sequence t cs)
          = some (parse_char_escape_sequence t)) ∧
    (∀ (t : String) (cs : List Pair),
        parse_component (Pair.mk .nul_escape_sequence t cs) = some "\x00") ∧
    parse_string [] = some "" ∧
    (∀ (c : Pair) (rest : List Pair) (s1 s2 : String),
        parse_component c = some s1 → parse_string rest = some s2 →
        parse_string (c :: rest) = some (s1 ++ s2)) ∧
    (∀ (text : String) (cs : List Pair) (s : String), parse_string cs = some s →
        deserialize_any (Pair.mk .string text cs) = .ok (.vstring s)) := by
  refine ⟨fun t cs => rfl, ⟨rfl, rfl, rfl, rfl, rfl, rfl⟩, fun t h1 h2 h3 h4 h5 h6 => ?_,
    fun t cs => rfl, fun t cs => rfl, rfl, fun c rest s1 s2 h1 h2 => ?_, fun text cs s h => ?_⟩
  · unfold parse_char_escape_sequence
    rw [if_neg h1, if_neg h2, if_neg h3, if_neg h4, if_neg h5, if_neg h6]
  · show (match parse_component c, parse_string rest with
          | some u, some w => some (u ++ w)
          | _, _ => none) = some (s1 ++ s2)
    rw [h1, h2]
  · show (match parse_string cs with
          | some u => DRes.ok (VisitArg.vstring u)
          | none => DRes.fatal) = DRes.ok (VisitArg.vstring s)
    rw [h]

/-- C6 (witness): the theorem applied to the catch-all escape `q` and
to a concrete two-component string node. -/
theorem C6_string_concat_witness :
    parse_char_escape_sequence "q" = "q" ∧
    parse_string [Pair.mk .char_literal "ab" [], Pair.mk .char_escape_sequence "n" []]
      = some ("ab" ++ "\x0A") :=
  ⟨C6_string_concat.2.2.1 "q" (by decide) (by decide) (by decide) (by decide) (by decide)
      (by decide),
   C6_string_concat.2.2.2.2.2.2.1 (Pair.mk .char_literal "ab" [])
      [Pair.mk .char_escape_sequence "n" []] "ab" "\x0A" rfl rfl⟩

lemma parse_number_not_special_of_hex {s : String} (h : is_hex_literal s.data = true) :
    s ≠ "Infinity" ∧ s ≠ "-Infinity" ∧ s ≠ "NaN" ∧ s ≠ "-NaN" := by
  refine ⟨?_, ?_, ?_, ?_⟩ <;> intro he <;> subst he <;> exact absurd h (by decide)

lemma parse_number_hex {s : String} (h : is_hex_literal s.data = true) :
    parse_number s
      = Option.map (fun (v : ℕ) => JNum.val (v : ℚ)) (parse_hex (s.data.drop 2)) := by
  obtain ⟨h1, h2, h3, h4⟩ := parse_number_not_special_of_hex h
  unfold parse_number
  rw [if_neg h1, if_neg h2, if_neg (fun hc => hc.elim h3 h4), if_pos h]

lemma parse_hex_core_all {ds : List Char} (h : ∀ c ∈ ds, (hexDigit? c).isSome = true) :
    ∀ a : ℕ, parse_hex_core ds a
      = some (ds.foldl (fun x c => 16 * x + (hexDigit? c).getD 0) a) := by
  induction ds with
  | nil => intro a; rfl
  | cons c cs ih =>
    intro a
    have hc : (hexDigit? c).isSome = true := h c (List.mem_cons_self c cs)
    obtain ⟨d, hd⟩ := Option.isSome_iff_exists.mp hc
    have ih2 := ih (fun x hx => h x (List.mem_cons_of_mem _ hx))
    simp only [parse_hex_core, hd, List.foldl_cons, Option.getD_some, ih2]

lemma parse_hex_mag_all {ds : List Char} (hne : ds ≠ [])
    (h : ∀ c ∈ ds, (hexDigit? c).isSome = true) :
    parse_hex_mag ds = if hexVal ds < 2 ^ 32 then some (hexVal ds) else none := by
  unfold parse_hex_mag
  rw [if_neg hne, parse_hex_core_all h 0]
  rfl

lemma parse_hex_all {ds : List Char} (hne : ds ≠ [])
    (h : ∀ c ∈ ds, (hexDigit? c).isSome = true) :
    parse_hex ds = if hexVal ds < 2 ^ 32 then some (hexVal ds) else none := by
  cases ds with
  | nil => exact absurd rfl hne
  | cons c cs =>
    have hc : (hexDigit? c).isSome = true := h c (List.mem_cons_self c cs)
    have hp : c ≠ '+' := by intro he; rw [he] at hc; exact absurd hc (by decide)
    have hm : c ≠ '-' := by intro he; rw [he] at hc; exact absurd hc (by decide)
    simp only [parse_hex]
    rw [if_neg hp, if_neg hm]
    exact parse_hex_mag_all hne h

lemma parse_hex_mag_lt {ds : List Char} {v : ℕ} (h : parse_hex_mag ds = some v) :
    v < 2 ^ 32 := by
  unfold parse_hex_mag at h
  split at h
  · exact absurd h (by simp)
  · cases hc : parse_hex_core ds 0 with
    | none => rw [hc] at h; exact absurd h (by simp)
    | some w =>
      rw [hc] at h
      simp only [Option.bind] at h
      by_cases hw : w < 2 ^ 32
      · rw [if_pos hw] at h
        injection h with h2
        omega
      · rw [if_neg hw] at h
        exact absurd h (by simp)

lemma parse_hex_lt {ds : List Char} {v : ℕ} (h : parse_hex ds = some v) : v < 2 ^ 32 := by
  cases ds with
  | nil => exact absurd h (by simp [parse_hex])
  | cons c cs =>
    simp only [parse_hex] at h
    split at h
    · exact parse_hex_mag_lt h
    · split at h
      · cases hc : parse_hex_mag cs with
        | none => rw [hc] at h; exact absurd h (by simp)
        | some w =>
          rw [hc] at h
          simp only [Option.bind] at h
          by_cases hw : w = 0
          · rw [if_pos hw] at h
            injection h with h2
            omega
          · rw [if_neg hw] at h
            exact absurd h (by simp)
      · exact parse_hex_mag_lt h

/-- C4 (counterexample to the claim as stated): the hex literal
`0x100000000`, whose digit value is exactly 2 to the 32nd, does not
yield that integer as a floating-point value — the base-16 conversion
overflows `u32` and its `unwrap` aborts the decode. -/
theorem C4_counterexample :
    parse_number "0x100000000" = none ∧
    parse_number "0x100000000" ≠ some (JNum.val ((4294967296 : ℕ) : ℚ)) := by
  exact ⟨by decide, by decide⟩

/-- C4 (amended): the number text is matched in priority order —
`Infinity`, `-Infinity`, `NaN` or `-NaN`, then a hexadecimal literal
(prefix 0x or 0X, length above two), which yields the base-16 value of
its digits when the conversion succeeds (value at most 2 to the 32nd
minus one) and aborts fatally when the conversion overflows, and
finally the standard decimal/exponential parse of the full text; the
hex example of the claim agrees with its decimal equivalent. -/
theorem C4_number_priority :
    parse_number "Infinity" = some JNum.inf ∧
    parse_number "-Infinity" = some JNum.negInf ∧
    parse_number "NaN" = some JNum.nan ∧
    parse_number "-NaN" = some JNum.nan ∧
    (∀ (s : String) (v : ℕ), is_hex_literal s.data = true →
        parse_hex (s.data.drop 2) = some v → parse_number s = some (JNum.val (v : ℚ))) ∧
    (∀ s : String, is_hex_literal s.data = true →
        parse_hex (s.data.drop 2) = none → parse_number s = none) ∧
    (∀ s : String, s ≠ "Infinity" → s ≠ "-Infinity" → s ≠ "NaN" → s ≠ "-NaN" →
        is_hex_literal s.data = false → parse_number s = parse_f64 s.data) ∧
    parse_number "0x00000F" = parse_number "15" ∧
    parse_number "0x00000F" = some (JNum.val 15) := by
  refine ⟨rfl, rfl, rfl, rfl, fun s v hhex hv => ?_, fun s hhex hv => ?_,
    fun s h1 h2 h3 h4 h5 => ?_, by decide, by decide⟩
  · rw [parse_number_hex hhex, hv]
    rfl
  · rw [parse_number_hex hhex, hv]
    rfl
  · unfold parse_number
    rw [if_neg h1, if_neg h2, if_neg (fun hc => hc.elim h3 h4), if_neg (by simp [h5])]

/-- C4 (witness): the amended theorem applied to the hex literal
`0x1A` and to the decimal branch at `15`. -/
theorem C4_number_priority_witness :
    parse_number "0x1A" = some (JNum.val ((26 : ℕ) : ℚ)) ∧
    parse_number "15" = parse_f64 "15".data :=
  ⟨C4_number_priority.2.2.2.2.1 "0x1A" 26 (by decide) (by decide),
   C4_number_priority.2.2.2.2.2.2.1 "15" (by decide) (by decide) (by decide) (by decide)
      (by decide)⟩

lemma seq_drive_eq_collect {α : Type} (f : Pair → DRes α) :
    ∀ ps : List Pair, seq_drive f (ps.length + 1) ⟨ps⟩ = seq_collect f ps := by
  intro ps
  induction ps with
  | nil => rfl
  | cons p ps ih =>
    show (match (DRes.map some (f p), (⟨ps⟩ : SeqAcc)) with
          | (.ok none, _) => DRes.ok []
          | (.ok (some a), s2) => DRes.map (fun l => a :: l) (seq_drive f (ps.length + 1) s2)
          | (.err e, _) => DRes.err e
          | (.fatal, _) => DRes.fatal)
        = match f p with
          | .ok a => DRes.map (fun l => a :: l) (seq_collect f ps)
          | .err e => DRes.err e
          | .fatal => DRes.fatal
    cases f p with
    | ok a =>
      show DRes.map (fun l => a :: l) (seq_drive f (ps.length + 1) ⟨ps⟩)
          = DRes.map (fun l => a :: l) (seq_collect f ps)
      exact congrArg _ ih
    | err e => rfl
    | fatal => rfl

/-- C9: the sequence adapter — exhaustion is reported exactly on the
empty remaining-children iterator; on a nonempty one the next call
decodes the head child and advances by one; driving the adapter with
enough fuel equals the in-order single-pass traversal `seq_collect`,
whose cons equation shows every child is decoded exactly once in source
order; and the nested example of the claim decodes to the nested list
with order and depth preserved. -/
theorem C9_sequence_order :
    (∀ (α : Type) (f : Pair → DRes α), next_element_seed f ⟨[]⟩ = (.ok none, ⟨[]⟩)) ∧
    (∀ (α : Type) (f : Pair → DRes α) (p : Pair) (rest : List Pair),
        next_element_seed f ⟨p :: rest⟩ = (DRes.map some (f p), ⟨rest⟩)) ∧
    (∀ (α : Type) (f : Pair → DRes α) (ps : List Pair),
        seq_drive f (ps.length + 1) ⟨ps⟩ = seq_collect f ps) ∧
    (∀ (α : Type) (f : Pair → DRes α) (p : Pair) (ps : List Pair),
        seq_collect f (p :: ps)
          = DRes.bind (f p) (fun a => DRes.map (fun l => a :: l) (seq_collect f ps))) ∧
    decode_i32_vec_vec nested_array_tree = .ok [[1, 2], [3], []] := by
  refine ⟨fun α f => rfl, fun α f p rest => rfl, fun α f ps => seq_drive_eq_collect f ps,
    fun α f p ps => ?_, by decide⟩
  show (match f p with
        | .ok a => DRes.map (fun l => a :: l) (seq_collect f ps)
        | .err e => .err e
        | .fatal => .fatal) = _
  cases f p <;> rfl

/-- C10: hex literal decoding is total only up to 32 bits — for a hex
literal whose digits encode a value below 2 to the 32nd, `parse_number`
returns exactly that integer, while a larger digit value makes the
internal base-16 `unwrap` abort (`none`), so every hex literal that
does decode successfully has value at most 2 to the 32nd minus one. -/
theorem C10_hex_32bit :
    (∀ ds : List Char, ds ≠ [] → (∀ c ∈ ds, (hexDigit? c).isSome = true) →
        (hexVal ds < 2 ^ 32 →
            parse_number (String.mk ('0' :: 'x' :: ds)) = some (JNum.val (hexVal ds : ℚ))) ∧
        (2 ^ 32 ≤ hexVal ds →
            parse_number (String.mk ('0' :: 'x' :: ds)) = none)) ∧
    (∀ (s : String) (q : ℚ), is_hex_literal s.data = true →
        parse_number s = some (JNum.val q) → ∃ v : ℕ, q = (v : ℚ) ∧ v < 2 ^ 32) := by
  constructor
  · intro ds hne hdig
    have hhex : is_hex_literal (String.mk ('0' :: 'x' :: ds)).data = true := by
      cases ds with
      | nil => exact absurd rfl hne
      | cons c cs => rfl
    have hdata : (String.mk ('0' :: 'x' :: ds)).data.drop 2 = ds := rfl
    constructor
    · intro hlt
      rw [parse_number_hex hhex, hdata, parse_hex_all hne hdig, if_pos hlt]
      rfl
    · intro hge
      rw [parse_number_hex hhex, hdata, parse_hex_all hne hdig, if_neg (by omega)]
      rfl
  · intro s q hhex hq
    rw [parse_number_hex hhex] at hq
    obtain ⟨v, hv1, hv2⟩ := Option.map_eq_some'.mp hq
    refine ⟨v, ?_, parse_hex_lt hv1⟩
    injection hv2 with h3
    exact h3.symm

/-- C10 (witness): the theorem applied to the one-digit literal `0xF`
(value 15) and to the nine-digit literal `0x100000000` (value 2 to the
32nd, fatal). -/
theorem C10_hex_32bit_witness :
    parse_number (String.mk ['0', 'x', 'F']) = some (JNum.val ((15 : ℕ) : ℚ)) ∧
    parse_number (String.mk ['0', 'x', '1', '0', '0', '0', '0', '0', '0', '0', '0']) = none :=
  ⟨(C10_hex_32bit.1 ['F'] (by decide) (by decide)).1 (by decide),
   (C10_hex_32bit.1 ['1', '0', '0', '0', '0', '0', '0', '0', '0'] (by decide) (by decide)).2
      (by decide)⟩

end Json5

